import Mathlib

/-!
# Verification of the TYNDA music-backend playlist and admin routes

A shallow embedding of `src/routes/playlists.js` (the playlist router and
the admin router it is bundled with).  MongoDB collections are modelled as
Lean lists of records; `findOne`/`updateOne`/`deleteOne` act on the first
matching element, `$addToSet` appends when absent, `$pull` removes every
matching element, and `new Date()` timestamps are passed in as an explicit
`now : Nat` parameter.  Session authentication happens in middleware that is
outside this router, so every handler takes the session user id `sess` as a
parameter.
-/

namespace Tynda

/-- Model of MongoDB `ObjectId.isValid` for string inputs: a 24-character
hexadecimal string. -/
def hexCharP (c : Char) : Bool :=
  c.isDigit || (('a' ≤ c) && (c ≤ 'f')) || (('A' ≤ c) && (c ≤ 'F'))

/-- `ObjectId.isValid` from the `mongodb` driver, specialised to string ids. -/
def oidValid (s : String) : Bool :=
  s.length == 24 && s.data.all hexCharP

/-- Model of JavaScript `String.prototype.trim`: strip whitespace from both
ends of the string. -/
def jsTrim (s : String) : String :=
  ⟨((s.data.dropWhile Char.isWhitespace).reverse.dropWhile Char.isWhitespace).reverse⟩

/-- A document of the `users` collection (fields the routers touch). -/
structure User where
  _id : String
  email : String
  username : String
  role : String
  updatedAt : Nat
deriving Repr, DecidableEq

/-- A document of the `tracks` collection (fields the playlist router touches;
the full record is carried opaquely so `tracksData` returns whole documents). -/
structure Track where
  _id : String
  title : String
  artist : String
deriving Repr, DecidableEq

/-- A document of the `playlists` collection. -/
structure Playlist where
  _id : String
  name : String
  description : String
  coverUrl : String
  userId : String
  tracks : List String
  createdAt : Nat
  updatedAt : Nat
deriving Repr, DecidableEq

/-- The database handle returned by `getDb()`: the three collections the
routers use. -/
structure Db where
  users : List User
  tracks : List Track
  playlists : List Playlist
deriving Repr, DecidableEq

/-- `updateOne`: apply `f` to the first element matching `pred`, leaving the
rest of the list unchanged. -/
def updateFirst (pred : α → Bool) (f : α → α) : List α → List α
  | [] => []
  | x :: xs => if pred x then f x :: xs else x :: updateFirst pred f xs

/-- `deleteOne`: remove the first element matching `pred`. -/
def deleteFirst (pred : α → Bool) : List α → List α
  | [] => []
  | x :: xs => if pred x then xs else x :: deleteFirst pred xs

/-- `findOne({_id: id})` on the `users` collection. -/
def findUser (db : Db) (id : String) : Option User :=
  db.users.find? (fun u => u._id == id)

/-- `findOne({_id: id})` on the `tracks` collection. -/
def findTrack (db : Db) (id : String) : Option Track :=
  db.tracks.find? (fun t => t._id == id)

/-- `const isAdmin = user && user.role === 'admin'` after looking up the
session user. -/
def isAdminUser (db : Db) (sess : String) : Bool :=
  match findUser db sess with
  | some u => u.role == "admin"
  | none => false

/-- The ownership-scoped query `{_id: pid, userId: sess}` used by every
playlist mutation. -/
def ownedQuery (sess pid : String) (p : Playlist) : Bool :=
  p._id == pid && p.userId == sess

/-- `$addToSet`: append the value only when it is not already a member. -/
def addToSet (x : String) (l : List String) : List String :=
  if l.contains x then l else l ++ [x]

/-- Comparison used to model `.sort({createdAt: -1})` (newest first). -/
def createdDesc (a b : Playlist) : Bool :=
  b.createdAt ≤ a.createdAt

/-- `GET /api/playlists`: admin sees every playlist (the `$lookup`/`$project`
stages only attach owner display fields and drop none of the fields modelled
here, so the admin branch is modelled as the full sorted list); a regular
user sees only playlists whose `userId` equals the session id; both sorted
by `createdAt` descending. -/
def listPlaylists (db : Db) (sess : String) : List Playlist :=
  if isAdminUser db sess then
    db.playlists.mergeSort createdDesc
  else
    (db.playlists.filter (fun p => p.userId == sess)).mergeSort createdDesc

/-- The JSON body of a successful `GET /api/playlists/:id` response: the
playlist document with the `isOwner` annotation and the resolved
`tracksData`. -/
structure PlaylistView where
  playlist : Playlist
  isOwner : Bool
  tracksData : List Track
deriving Repr, DecidableEq

/-- `GET /api/playlists/:id`: returns the HTTP status and, on 200, the
annotated playlist.  Admin may fetch any playlist; a regular user's query is
additionally constrained by `userId`, so a missing and a foreign playlist
are indistinguishable (both 404). -/
def getPlaylist (db : Db) (sess pid : String) : Nat × Option PlaylistView :=
  if !oidValid pid then (400, none)
  else
    let isAdmin := isAdminUser db sess
    match db.playlists.find? (fun p => p._id == pid && (isAdmin || p.userId == sess)) with
    | none => (404, none)
    | some p =>
      let tracksData :=
        if p.tracks.length > 0 then db.tracks.filter (fun t => p.tracks.contains t._id)
        else []
      (200, some ⟨p, p.userId == sess, tracksData⟩)

/-- The document `POST /api/playlists` inserts: trimmed text fields, empty
membership, fresh timestamps.  `newId` is the id the store assigns
(`result.insertedId`). -/
def newPlaylistRecord (sess : String) (n : String)
    (description coverUrl : Option String) (now : Nat) (newId : String) :
    Playlist :=
  { _id := newId
    name := jsTrim n
    description := (description.map jsTrim).getD ""
    coverUrl := (coverUrl.map jsTrim).getD ""
    userId := sess
    tracks := []
    createdAt := now
    updatedAt := now }

/-- `POST /api/playlists`: validates the name (required, non-empty after
trim, raw length at most 100), then inserts the new record. -/
def createPlaylist (db : Db) (sess : String)
    (name description coverUrl : Option String) (now : Nat) (newId : String) :
    Nat × Db :=
  match name with
  | none => (400, db)
  | some n =>
    if (jsTrim n).length == 0 then (400, db)
    else if n.length > 100 then (400, db)
    else
      (201, { db with playlists :=
        db.playlists ++ [newPlaylistRecord sess n description coverUrl now newId] })

/-- The `$set` document built by `PUT /api/playlists/:id`, applied to a
matched playlist. -/
def applyPlaylistUpdate (name description coverUrl : Option String) (now : Nat)
    (p : Playlist) : Playlist :=
  { p with
    updatedAt := now
    name := match name with | some n => jsTrim n | none => p.name
    description := match description with | some d => jsTrim d | none => p.description
    coverUrl := match coverUrl with | some c => jsTrim c | none => p.coverUrl }

/-- `PUT /api/playlists/:id`: partial merge of name/description/coverUrl,
scoped to the owner; when a name is supplied it is only re-checked for
non-emptiness. -/
def updatePlaylist (db : Db) (sess pid : String)
    (name description coverUrl : Option String) (now : Nat) : Nat × Db :=
  if !oidValid pid then (400, db)
  else if name.any (fun n => (jsTrim n).length == 0) then (400, db)
  else if db.playlists.any (ownedQuery sess pid) then
    (200, { db with
      playlists := updateFirst (ownedQuery sess pid)
        (applyPlaylistUpdate name description coverUrl now) db.playlists })
  else (404, db)

/-- The `$addToSet`/`$set` update document of the add-track handler. -/
def pushTrack (tid : String) (now : Nat) (p : Playlist) : Playlist :=
  { p with tracks := addToSet tid p.tracks, updatedAt := now }

/-- The `$pull`/`$set` update document of the remove-track handler. -/
def pullTrack (tid : String) (now : Nat) (p : Playlist) : Playlist :=
  { p with tracks := p.tracks.filter (fun x => x != tid), updatedAt := now }

/-- `POST /api/playlists/:id/tracks`: validates both ids, requires the track
to exist, then `$addToSet`s it into the owned playlist's membership and
bumps `updatedAt`. -/
def addTrack (db : Db) (sess pid : String) (trackId : Option String)
    (now : Nat) : Nat × Db :=
  if !oidValid pid then (400, db)
  else
    match trackId with
    | none => (400, db)
    | some tid =>
      if !oidValid tid then (400, db)
      else
        match findTrack db tid with
        | none => (404, db)
        | some _ =>
          if db.playlists.any (ownedQuery sess pid) then
            (200, { db with
              playlists := updateFirst (ownedQuery sess pid) (pushTrack tid now)
                db.playlists })
          else (404, db)

/-- `DELETE /api/playlists/:id/tracks/:trackId`: `$pull`s every occurrence of
the id from the owned playlist's membership and bumps `updatedAt`; pulling
an absent id is not an error. -/
def removeTrack (db : Db) (sess pid tid : String) (now : Nat) : Nat × Db :=
  if !(oidValid pid && oidValid tid) then (400, db)
  else if db.playlists.any (ownedQuery sess pid) then
    (200, { db with
      playlists := updateFirst (ownedQuery sess pid) (pullTrack tid now)
        db.playlists })
  else (404, db)

/-- `DELETE /api/playlists/:id`: `deleteOne` scoped to the owner. -/
def deletePlaylist (db : Db) (sess pid : String) : Nat × Db :=
  if !oidValid pid then (400, db)
  else if db.playlists.any (ownedQuery sess pid) then
    (200, { db with playlists := deleteFirst (ownedQuery sess pid) db.playlists })
  else (404, db)

/-- `PATCH /api/admin/users/:id/role`: validates the id and the role value,
refuses self-demotion (400), protects the super-admin account
`admin@tynda.kz` from non-admin roles (403), then updates role and
`updatedAt` on the first matching user. -/
def updateUserRole (db : Db) (sess pid : String) (role : Option String)
    (now : Nat) : Nat × Db :=
  if !oidValid pid then (400, db)
  else
    match role with
    | none => (400, db)
    | some r =>
      if !(r == "user" || r == "admin") then (400, db)
      else if pid == sess && r != "admin" then (400, db)
      else if (match findUser db pid with
               | some u => u.email == "admin@tynda.kz" && r != "admin"
               | none => false) then (403, db)
      else if db.users.any (fun u => u._id == pid) then
        (200, { db with
          users := updateFirst (fun u => u._id == pid)
            (fun u => { u with role := r, updatedAt := now }) db.users })
      else (404, db)

/-- `DELETE /api/admin/users/:id`: validates the id, refuses self-deletion
(400), then `deleteOne` by id. -/
def deleteUser (db : Db) (sess pid : String) : Nat × Db :=
  if !oidValid pid then (400, db)
  else if pid == sess then (400, db)
  else if db.users.any (fun u => u._id == pid) then
    (200, { db with users := deleteFirst (fun u => u._id == pid) db.users })
  else (404, db)

/-- One `POST /api/playlists/:id/tracks` request, for reasoning about
sequences of add operations. -/
structure AddReq where
  sess : String
  pid : String
  trackId : Option String
  now : Nat
deriving Repr

/-- Run a sequence of add-track requests against the store. -/
def runAdds (reqs : List AddReq) (db : Db) : Db :=
  reqs.foldl (fun d r => (addTrack d r.sess r.pid r.trackId r.now).2) db

/-! ## Concrete stores used to instantiate the theorems -/

/-- The distinguished super-admin user record. -/
def superAdmin : User :=
  { _id := "aaaaaaaaaaaaaaaaaaaaaaaa", email := "admin@tynda.kz",
    username := "root", role := "admin", updatedAt := 0 }

/-- An ordinary admin user distinct from the super admin. -/
def adminCaller : User :=
  { _id := "dddddddddddddddddddddddd", email := "ops@tynda.kz",
    username := "ops", role := "admin", updatedAt := 0 }

/-- A store holding only the super-admin account. -/
def dbSuper : Db := { users := [superAdmin], tracks := [], playlists := [] }

/-- A store holding the super admin and a second admin. -/
def dbSuper2 : Db := { users := [superAdmin, adminCaller], tracks := [], playlists := [] }

/-- An empty store. -/
def dbEmpty : Db := { users := [], tracks := [], playlists := [] }

/-- A non-admin user for the concrete stores. -/
def regUser : User :=
  { _id := "eeeeeeeeeeeeeeeeeeeeeeee", email := "liz@x.kz",
    username := "liz", role := "user", updatedAt := 0 }

/-- A playlist owned by the super admin, used as a foreign playlist. -/
def foreignPlaylist : Playlist :=
  { _id := "ffffffffffffffffffffffff", name := "Ops Mix", description := "",
    coverUrl := "", userId := "aaaaaaaaaaaaaaaaaaaaaaaa",
    tracks := [], createdAt := 10, updatedAt := 10 }

/-- Store with a non-admin user and one playlist the user does not own. -/
def dbForeign : Db :=
  { users := [superAdmin, regUser], tracks := [], playlists := [foreignPlaylist] }

/-- Two playlists owned by the regular user, created out of order. -/
def ownPlaylistOld : Playlist :=
  { _id := "111111111111111111111111", name := "Old", description := "",
    coverUrl := "", userId := "eeeeeeeeeeeeeeeeeeeeeeee",
    tracks := [], createdAt := 1, updatedAt := 1 }

def ownPlaylistNew : Playlist :=
  { _id := "222222222222222222222222", name := "New", description := "",
    coverUrl := "", userId := "eeeeeeeeeeeeeeeeeeeeeeee",
    tracks := [], createdAt := 9, updatedAt := 9 }

/-- Store mixing the non-admin user's playlists with a foreign one. -/
def dbListing : Db :=
  { users := [superAdmin, regUser], tracks := [],
    playlists := [ownPlaylistOld, foreignPlaylist, ownPlaylistNew] }

/-- Track records for the concrete stores. -/
def trackA : Track :=
  { _id := "333333333333333333333333", title := "Alpha", artist := "A" }

def trackB : Track :=
  { _id := "444444444444444444444444", title := "Beta", artist := "B" }

/-- A playlist of the regular user holding one of the two stored tracks. -/
def ownPlaylistTracked : Playlist :=
  { _id := "555555555555555555555555", name := "Mix", description := "",
    coverUrl := "", userId := "eeeeeeeeeeeeeeeeeeeeeeee",
    tracks := ["333333333333333333333333"], createdAt := 4, updatedAt := 4 }

def dbTracked : Db :=
  { users := [superAdmin, regUser], tracks := [trackA, trackB],
    playlists := [ownPlaylistTracked] }

/-- Two back-to-back add requests for the same track on the same playlist. -/
def addTwiceReqs : List AddReq :=
  [{ sess := "eeeeeeeeeeeeeeeeeeeeeeee", pid := "555555555555555555555555",
     trackId := some "444444444444444444444444", now := 6 },
   { sess := "eeeeeeeeeeeeeeeeeeeeeeee", pid := "555555555555555555555555",
     trackId := some "444444444444444444444444", now := 7 }]

/-- The playlist-name invariant of the data model: non-empty and at most
100 characters. -/
abbrev namesOk (db : Db) : Prop :=
  ∀ p ∈ db.playlists, p.name.length ≠ 0 ∧ p.name.length ≤ 100

/-- A 101-character name (all `a`, so trimming does not shorten it). -/
def longName : String := String.mk (List.replicate 101 'a')

/-! ## Helper lemmas about the store primitives -/

/-- `updateFirst` rewrites exactly the first match: the list decomposes
around the element returned by `find?`. -/
theorem updateFirst_decomp (pred : α → Bool) (f : α → α) :
    ∀ {l : List α} {p : α}, l.find? pred = some p →
      ∃ l₁ l₂, l = l₁ ++ p :: l₂ ∧ (∀ x ∈ l₁, pred x = false) ∧
        updateFirst pred f l = l₁ ++ f p :: l₂ := by
  intro l
  induction l with
  | nil => intro p h; simp [List.find?] at h
  | cons x xs ih =>
    intro p h
    by_cases hx : pred x = true
    · have hp : p = x := by
        simp [List.find?_cons, hx] at h
        exact h.symm
      subst hp
      exact ⟨[], xs, by simp, by simp, by simp [updateFirst, hx]⟩
    · have hx' : pred x = false := by simpa using hx
      rw [List.find?_cons, hx'] at h
      obtain ⟨l₁, l₂, hdec, hpre, hupd⟩ := ih h
      exact ⟨x :: l₁, l₂, by simp [hdec], by
        intro y hy
        rcases List.mem_cons.mp hy with hy | hy
        · simpa [hy] using hx'
        · exact hpre y hy, by simp [updateFirst, hx', hupd]⟩

/-- Every element of `updateFirst pred f l` is an element of `l` or the
image under `f` of an element of `l`. -/
theorem mem_updateFirst {pred : α → Bool} {f : α → α} :
    ∀ {l : List α} {q : α}, q ∈ updateFirst pred f l →
      q ∈ l ∨ ∃ p, p ∈ l ∧ q = f p := by
  intro l
  induction l with
  | nil => intro q h; simp [updateFirst] at h
  | cons x xs ih =>
    intro q h
    by_cases hx : pred x = true
    · simp only [updateFirst, hx, if_true] at h
      rcases List.mem_cons.mp h with h | h
      · exact Or.inr ⟨x, List.mem_cons_self x xs, h⟩
      · exact Or.inl (List.mem_cons_of_mem x h)
    · simp only [updateFirst, hx, if_false] at h
      rcases List.mem_cons.mp h with h | h
      · exact Or.inl (h ▸ List.mem_cons_self x xs)
      · rcases ih h with h | ⟨p, hp, hq⟩
        · exact Or.inl (List.mem_cons_of_mem x h)
        · exact Or.inr ⟨p, List.mem_cons_of_mem x hp, hq⟩

/-- A successful `find?` makes the collection's `any` true (the
`matchedCount` check of `updateOne`). -/
theorem any_of_find? {pred : α → Bool} {l : List α} {p : α}
    (h : l.find? pred = some p) : l.any pred = true :=
  List.any_eq_true.mpr ⟨p, List.mem_of_find?_eq_some h, List.find?_some h⟩

/-- `$addToSet` preserves the no-duplicates invariant. -/
theorem addToSet_nodup {x : String} {l : List String} (h : l.Nodup) :
    (addToSet x l).Nodup := by
  unfold addToSet
  by_cases hx : x ∈ l
  · simp [hx, h]
  · simp [hx, h, List.nodup_append]

/-- `$addToSet` of an already-present value is the identity. -/
theorem addToSet_of_mem {x : String} {l : List String} (h : x ∈ l) :
    addToSet x l = l := by
  unfold addToSet
  simp [h]

/-- Trimming never lengthens a string. -/
theorem jsTrim_length_le (s : String) : (jsTrim s).length ≤ s.length := by
  show ((((s.data.dropWhile Char.isWhitespace).reverse.dropWhile
    Char.isWhitespace).reverse).length) ≤ s.data.length
  rw [List.length_reverse]
  calc ((s.data.dropWhile Char.isWhitespace).reverse.dropWhile Char.isWhitespace).length
      ≤ (s.data.dropWhile Char.isWhitespace).reverse.length :=
        (List.dropWhile_sublist _).length_le
    _ = (s.data.dropWhile Char.isWhitespace).length := List.length_reverse _
    _ ≤ s.data.length := (List.dropWhile_sublist _).length_le

/-- Every element of `deleteFirst pred l` is an element of `l`. -/
theorem mem_deleteFirst {pred : α → Bool} :
    ∀ {l : List α} {q : α}, q ∈ deleteFirst pred l → q ∈ l := by
  intro l
  induction l with
  | nil => intro q h; simp [deleteFirst] at h
  | cons x xs ih =>
    intro q h
    by_cases hx : pred x = true
    · simp only [deleteFirst, hx, if_true] at h
      exact List.mem_cons_of_mem x h
    · simp only [deleteFirst, hx, if_false] at h
      rcases List.mem_cons.mp h with h | h
      · exact h ▸ List.mem_cons_self x xs
      · exact List.mem_cons_of_mem x (ih h)

/-- The playlists collection after an add-track request: either untouched
(validation failure, missing track, or unmatched playlist) or rewritten by
`updateFirst` with the `$addToSet`/`$set` document. -/
theorem addTrack_playlists_cases (db : Db) (sess pid : String)
    (trackId : Option String) (now : Nat) :
    (addTrack db sess pid trackId now).2.playlists = db.playlists ∨
    ∃ tid, trackId = some tid ∧
      (addTrack db sess pid trackId now).2.playlists =
        updateFirst (ownedQuery sess pid) (pushTrack tid now) db.playlists := by
  unfold addTrack
  by_cases h1 : oidValid pid = true
  · cases trackId with
    | none => left; simp [h1]
    | some tid =>
      by_cases h2 : oidValid tid = true
      · cases hft : findTrack db tid with
        | none => left; simp [h1, h2, hft]
        | some t =>
          by_cases h3 : db.playlists.any (ownedQuery sess pid) = true
          · right; exact ⟨tid, rfl, by simp [h1, h2, hft, h3]⟩
          · left; simp [h1, h2, hft, h3]
      · left; simp [h1, h2]
  · left; simp [h1]

/-- A single add-track request preserves the no-duplicates invariant of
every playlist's membership list. -/
theorem addTrack_preserves_nodup (db : Db) (sess pid : String)
    (trackId : Option String) (now : Nat)
    (hinv : ∀ p ∈ db.playlists, p.tracks.Nodup) :
    ∀ p ∈ (addTrack db sess pid trackId now).2.playlists, p.tracks.Nodup := by
  intro p hp
  rcases addTrack_playlists_cases db sess pid trackId now with hc | ⟨tid, _, hc⟩
  · exact hinv p (hc ▸ hp)
  · rw [hc] at hp
    rcases mem_updateFirst hp with h | ⟨q, hq, hpq⟩
    · exact hinv p h
    · subst hpq
      exact addToSet_nodup (hinv q hq)

/-- A whole sequence of add-track requests preserves the no-duplicates
invariant. -/
theorem runAdds_preserves_nodup (reqs : List AddReq) (db : Db)
    (hinv : ∀ p ∈ db.playlists, p.tracks.Nodup) :
    ∀ p ∈ (runAdds reqs db).playlists, p.tracks.Nodup := by
  induction reqs generalizing db with
  | nil => simpa [runAdds] using hinv
  | cons r rs ih =>
    simp only [runAdds, List.foldl_cons]
    exact ih _ (addTrack_preserves_nodup db r.sess r.pid r.trackId r.now hinv)

/-- A matched remove-track request answers 200, touches only the playlists
collection, and rewrites exactly the first matched playlist with the
`$pull`/`$set` document. -/
theorem removeTrack_decomp (db : Db) (sess pid tid : String) (now : Nat)
    (p : Playlist)
    (hpid : oidValid pid = true) (htid : oidValid tid = true)
    (hfind : db.playlists.find? (ownedQuery sess pid) = some p) :
    (removeTrack db sess pid tid now).1 = 200 ∧
    (removeTrack db sess pid tid now).2.users = db.users ∧
    (removeTrack db sess pid tid now).2.tracks = db.tracks ∧
    ∃ pre post, db.playlists = pre ++ p :: post ∧
      (removeTrack db sess pid tid now).2.playlists =
        pre ++ pullTrack tid now p :: post := by
  have hany := any_of_find? hfind
  have hres : removeTrack db sess pid tid now =
      (200, { db with
        playlists := updateFirst (ownedQuery sess pid) (pullTrack tid now)
          db.playlists }) := by
    unfold removeTrack
    simp [hpid, htid, hany]
  obtain ⟨pre, post, hdec, hpre, hupd⟩ :=
    updateFirst_decomp (ownedQuery sess pid) (pullTrack tid now) hfind
  exact ⟨by rw [hres], by rw [hres], by rw [hres],
    pre, post, hdec, by rw [hres]; simpa using hupd⟩

/-- The playlists collection after a remove-track request: untouched, or
rewritten by `updateFirst` with the `$pull`/`$set` document. -/
theorem removeTrack_playlists_cases (db : Db) (sess pid tid : String) (now : Nat) :
    (removeTrack db sess pid tid now).2.playlists = db.playlists ∨
    (removeTrack db sess pid tid now).2.playlists =
      updateFirst (ownedQuery sess pid) (pullTrack tid now) db.playlists := by
  unfold removeTrack
  by_cases h1 : (oidValid pid && oidValid tid) = true
  · by_cases h2 : db.playlists.any (ownedQuery sess pid) = true
    · right; simp [h1, h2]
    · left; simp [h1, h2]
  · left; simp [h1]

/-- The playlists collection after a playlist update: untouched, or (when
the supplied name passed the non-emptiness re-check) rewritten by
`updateFirst` with the `$set` document. -/
theorem updatePlaylist_playlists_cases (db : Db) (sess pid : String)
    (name description coverUrl : Option String) (now : Nat) :
    (updatePlaylist db sess pid name description coverUrl now).2.playlists
      = db.playlists ∨
    ((∀ n, name = some n → (jsTrim n).length ≠ 0) ∧
      (updatePlaylist db sess pid name description coverUrl now).2.playlists =
        updateFirst (ownedQuery sess pid)
          (applyPlaylistUpdate name description coverUrl now) db.playlists) := by
  unfold updatePlaylist
  by_cases h1 : oidValid pid = true
  · by_cases h2 : (name.any fun n => (jsTrim n).length == 0) = true
    · left; simp [h1, h2]
    · by_cases h3 : db.playlists.any (ownedQuery sess pid) = true
      · right
        refine ⟨?_, by simp [h1, h2, h3]⟩
        intro n hn
        rw [hn] at h2
        simpa using h2
      · left; simp [h1, h2, h3]
  · left; simp [h1]

/-- The playlists collection after a playlist delete: untouched or filtered
by `deleteFirst`. -/
theorem deletePlaylist_playlists_cases (db : Db) (sess pid : String) :
    (deletePlaylist db sess pid).2.playlists = db.playlists ∨
    (deletePlaylist db sess pid).2.playlists =
      deleteFirst (ownedQuery sess pid) db.playlists := by
  unfold deletePlaylist
  by_cases h1 : oidValid pid = true
  · by_cases h2 : db.playlists.any (ownedQuery sess pid) = true
    · right; simp [h1, h2]
    · left; simp [h1, h2]
  · left; simp [h1]

/-- The playlists collection after a playlist create: untouched, or extended
by the new record, whose raw name passed both validation checks. -/
theorem createPlaylist_playlists_cases (db : Db) (sess : String)
    (name description coverUrl : Option String) (now : Nat) (newId : String) :
    (createPlaylist db sess name description coverUrl now newId).2.playlists
      = db.playlists ∨
    ∃ n, name = some n ∧ (jsTrim n).length ≠ 0 ∧ n.length ≤ 100 ∧
      (createPlaylist db sess name description coverUrl now newId).2.playlists =
        db.playlists ++ [newPlaylistRecord sess n description coverUrl now newId] := by
  unfold createPlaylist
  cases name with
  | none => left; simp
  | some n =>
    by_cases h1 : ((jsTrim n).length == 0) = true
    · left; simp [h1]
    · by_cases h2 : (n.length > 100)
      · left; simp [h1, h2]
      · right
        exact ⟨n, rfl, by simpa using h1, by omega, by simp [h1, h2]⟩

/-! ## C1 — super-admin role protection -/

/-- C1 (counterexample): the claim promises a 403 for every authenticated
admin caller, but when the super admin targets their own account with role
`user` the self-demotion check fires first and the response is 400, not
403. -/
theorem superAdminSelfDemotionNot403 :
    isAdminUser dbSuper "aaaaaaaaaaaaaaaaaaaaaaaa" = true ∧
    (findUser dbSuper "aaaaaaaaaaaaaaaaaaaaaaaa").map User.email = some "admin@tynda.kz" ∧
    (updateUserRole dbSuper "aaaaaaaaaaaaaaaaaaaaaaaa" "aaaaaaaaaaaaaaaaaaaaaaaa"
      (some "user") 1).1 = 400 ∧
    (updateUserRole dbSuper "aaaaaaaaaaaaaaaaaaaaaaaa" "aaaaaaaaaaaaaaaaaaaaaaaa"
      (some "user") 1).1 ≠ 403 := by
  decide

/-- C1 (amended): a role-update request that targets the super-admin account
(email `admin@tynda.kz`) with the non-admin role value `user`, issued by an
authenticated admin caller whose id differs from the target id, is answered
with 403 and leaves the store — in particular the super admin's role field —
unchanged. -/
theorem superAdminRoleProtected (db : Db) (sess pid : String) (c u : User) (now : Nat)
    (hc : findUser db sess = some c) (hcadmin : c.role = "admin")
    (hpid : oidValid pid = true) (hne : pid ≠ sess)
    (hu : findUser db pid = some u) (hemail : u.email = "admin@tynda.kz") :
    updateUserRole db sess pid (some "user") now = (403, db) := by
  unfold updateUserRole
  simp [hpid, hne, hu, hemail]

/-- C1 (witness): the amended theorem applied in a concrete store where a
second admin demotes the super admin. -/
theorem superAdminRoleProtected_witness :
    updateUserRole dbSuper2 "dddddddddddddddddddddddd" "aaaaaaaaaaaaaaaaaaaaaaaa"
      (some "user") 2 = (403, dbSuper2) :=
  superAdminRoleProtected dbSuper2 "dddddddddddddddddddddddd" "aaaaaaaaaaaaaaaaaaaaaaaa"
    adminCaller superAdmin 2 (by decide) (by decide) (by decide) (by decide)
    (by decide) (by decide)

/-! ## C3 — adding a missing track -/

/-- C3 (counterexample): the claim quantifies over every add-track request
with a well-formed `trackId` missing from the store, but a request whose
playlist id is malformed is rejected 400 (validation), not 404. -/
theorem addTrackMissingTrackNot404 :
    oidValid "bbbbbbbbbbbbbbbbbbbbbbbb" = true ∧
    findTrack dbEmpty "bbbbbbbbbbbbbbbbbbbbbbbb" = none ∧
    (addTrack dbEmpty "s" "nope" (some "bbbbbbbbbbbbbbbbbbbbbbbb") 5).1 ≠ 404 := by
  decide

/-- C3 (amended): an add-track request whose playlist id and track id are
both well-formed but whose track id matches no track record is answered 404
and leaves the store — in particular every playlist's membership list —
unchanged. -/
theorem addTrackMissingTrack404 (db : Db) (sess pid tid : String) (now : Nat)
    (hpid : oidValid pid = true) (htid : oidValid tid = true)
    (hmiss : findTrack db tid = none) :
    addTrack db sess pid (some tid) now = (404, db) := by
  unfold addTrack
  simp [hpid, htid, hmiss]

/-- C3 (witness): the amended theorem applied to the empty store. -/
theorem addTrackMissingTrack404_witness :
    addTrack dbEmpty "s" "cccccccccccccccccccccccc" (some "bbbbbbbbbbbbbbbbbbbbbbbb") 5
      = (404, dbEmpty) :=
  addTrackMissingTrack404 dbEmpty "s" "cccccccccccccccccccccccc"
    "bbbbbbbbbbbbbbbbbbbbbbbb" 5 (by decide) (by decide) (by decide)

/-! ## C6 — self-targeted admin requests -/

/-- C6: an admin caller's role-update request on their own id with a role
other than `admin`, and a delete request on their own id, are both refused
with status 400 and leave the store — in particular the caller's user
record — unchanged. -/
theorem selfTargetedAdminRequestsRefused (db : Db) (sess : String) (u : User)
    (r : String) (now : Nat)
    (hu : findUser db sess = some u) (hadmin : u.role = "admin")
    (hr : r ≠ "admin") :
    updateUserRole db sess sess (some r) now = (400, db) ∧
    deleteUser db sess sess = (400, db) := by
  constructor
  · unfold updateUserRole
    by_cases h1 : oidValid sess = true
    · by_cases h2 : r = "user"
      · subst h2
        simp [h1]
      · simp [h1, h2, hr]
    · simp [h1]
  · unfold deleteUser
    by_cases h1 : oidValid sess = true
    · simp [h1]
    · simp [h1]

/-- C6 (witness): the theorem applied to the super admin demoting and
deleting themself. -/
theorem selfTargetedAdminRequestsRefused_witness :
    updateUserRole dbSuper "aaaaaaaaaaaaaaaaaaaaaaaa" "aaaaaaaaaaaaaaaaaaaaaaaa"
      (some "user") 3 = (400, dbSuper) ∧
    deleteUser dbSuper "aaaaaaaaaaaaaaaaaaaaaaaa" "aaaaaaaaaaaaaaaaaaaaaaaa"
      = (400, dbSuper) :=
  selfTargetedAdminRequestsRefused dbSuper "aaaaaaaaaaaaaaaaaaaaaaaa" superAdmin
    "user" 3 (by decide) (by decide) (by decide)

/-! ## C4 — non-admin get-one conflates missing and foreign playlists -/

/-- C4: a well-formed get-one request by an authenticated non-admin caller
whose id owns no playlist with the requested id — whether the playlist is
absent or owned by someone else — is answered 404 (in particular not
403). -/
theorem nonAdminGetForeignOrMissing404 (db : Db) (sess pid : String) (u : User)
    (hpid : oidValid pid = true)
    (hu : findUser db sess = some u) (hrole : u.role ≠ "admin")
    (hnone : ∀ p ∈ db.playlists, p._id = pid → p.userId ≠ sess) :
    getPlaylist db sess pid = (404, none) := by
  have hadm : isAdminUser db sess = false := by
    simp [isAdminUser, hu, hrole]
  have hfind : db.playlists.find?
      (fun p => p._id == pid && (isAdminUser db sess || p.userId == sess)) = none := by
    apply List.find?_eq_none.mpr
    intro p hp
    simp only [hadm, Bool.false_or, Bool.and_eq_true, beq_iff_eq, not_and]
    exact hnone p hp
  simp [getPlaylist, hpid, hfind]

/-- C4 (witness): the theorem applied to a non-admin fetching another
user's playlist. -/
theorem nonAdminGetForeignOrMissing404_witness :
    getPlaylist dbForeign "eeeeeeeeeeeeeeeeeeeeeeee" "ffffffffffffffffffffffff"
      = (404, none) :=
  nonAdminGetForeignOrMissing404 dbForeign "eeeeeeeeeeeeeeeeeeeeeeee"
    "ffffffffffffffffffffffff" regUser (by decide) (by decide) (by decide)
    (by decide)

/-! ## C5 — non-admin listing is ownership-scoped and newest-first -/

/-- C5: the list returned to an authenticated non-admin caller contains only
playlists whose `userId` is the caller's session id, and it is sorted by
`createdAt` descending (newest first). -/
theorem nonAdminListOwnSorted (db : Db) (sess : String) (u : User)
    (hu : findUser db sess = some u) (hrole : u.role ≠ "admin") :
    (∀ p ∈ listPlaylists db sess, p.userId = sess) ∧
    (listPlaylists db sess).Pairwise (fun a b => b.createdAt ≤ a.createdAt) := by
  have hadm : isAdminUser db sess = false := by
    simp [isAdminUser, hu, hrole]
  have htrans : ∀ a b c : Playlist, createdDesc a b → createdDesc b c → createdDesc a c := by
    intro a b c hab hbc
    simp only [createdDesc, decide_eq_true_eq] at *
    omega
  have htotal : ∀ a b : Playlist, createdDesc a b || createdDesc b a := by
    intro a b
    simp only [createdDesc, Bool.or_eq_true, decide_eq_true_eq]
    omega
  constructor
  · intro p hp
    rw [listPlaylists, hadm] at hp
    simp only [Bool.false_eq_true, if_false, List.mem_mergeSort] at hp
    simpa using (List.mem_filter.mp hp).2
  · rw [listPlaylists, hadm]
    simp only [Bool.false_eq_true, if_false]
    exact List.Pairwise.imp
      (fun h => by simpa [createdDesc] using h)
      (List.sorted_mergeSort htrans htotal
        (db.playlists.filter (fun p => p.userId == sess)))

/-- C5 (witness): the theorem applied to the concrete mixed store. -/
theorem nonAdminListOwnSorted_witness :
    (∀ p ∈ listPlaylists dbListing "eeeeeeeeeeeeeeeeeeeeeeee",
      p.userId = "eeeeeeeeeeeeeeeeeeeeeeee") ∧
    (listPlaylists dbListing "eeeeeeeeeeeeeeeeeeeeeeee").Pairwise
      (fun a b => b.createdAt ≤ a.createdAt) :=
  nonAdminListOwnSorted dbListing "eeeeeeeeeeeeeeeeeeeeeeee" regUser
    (by decide) (by decide)

/-! ## C7 — get-one response annotations -/

/-- C7: every successful get-one response carries an `isOwner` flag that is
true exactly when the playlist's `userId` equals the session id, and a
`tracksData` list holding exactly the stored track records whose ids are in
the membership list (the empty list when the membership is empty). -/
theorem getPlaylistResponseAnnotations (db : Db) (sess pid : String)
    (v : PlaylistView) (h : getPlaylist db sess pid = (200, some v)) :
    (v.isOwner = true ↔ v.playlist.userId = sess) ∧
    (∀ t ∈ db.tracks, t._id ∈ v.playlist.tracks → t ∈ v.tracksData) ∧
    (∀ t ∈ v.tracksData, t ∈ db.tracks ∧ t._id ∈ v.playlist.tracks) ∧
    (v.playlist.tracks = [] → v.tracksData = []) := by
  unfold getPlaylist at h
  by_cases hpid : oidValid pid = true
  · simp only [hpid, Bool.not_true, Bool.false_eq_true, if_false] at h
    rcases hfind : db.playlists.find?
        (fun p => p._id == pid && (isAdminUser db sess || p.userId == sess))
      with _ | p
    · rw [hfind] at h
      simp at h
    · rw [hfind] at h
      simp only [Prod.mk.injEq, Option.some.injEq] at h
      have hv : v = ⟨p, p.userId == sess,
          if p.tracks.length > 0 then
            db.tracks.filter (fun t => p.tracks.contains t._id)
          else []⟩ := h.2.symm
      subst hv
      refine ⟨by simp, ?_, ?_, ?_⟩
      · intro t ht hmem
        have hl : p.tracks.length > 0 := by
          cases htr : p.tracks with
          | nil => rw [htr] at hmem; simp at hmem
          | cons a as => simp [htr]
        simp only [hl, if_true, PlaylistView.tracksData]
        exact List.mem_filter.mpr ⟨ht, by simpa using hmem⟩
      · intro t ht
        by_cases hl : p.tracks.length > 0
        · simp only [hl, if_true, PlaylistView.tracksData] at ht
          have := List.mem_filter.mp ht
          exact ⟨this.1, by simpa using this.2⟩
        · simp only [hl, if_false, PlaylistView.tracksData] at ht
          simp at ht
      · intro he
        have he' : p.tracks = [] := he
        simp [PlaylistView.tracksData, he']
  · have : oidValid pid = false := by simpa using hpid
    rw [this] at h
    simp at h

/-- C7 (witness): the theorem applied to the owner fetching their playlist
with one resolvable track. -/
theorem getPlaylistResponseAnnotations_witness :
    ((⟨ownPlaylistTracked, true, [trackA]⟩ : PlaylistView).isOwner = true ↔
      (⟨ownPlaylistTracked, true, [trackA]⟩ : PlaylistView).playlist.userId
        = "eeeeeeeeeeeeeeeeeeeeeeee") ∧
    (∀ t ∈ dbTracked.tracks,
      t._id ∈ (⟨ownPlaylistTracked, true, [trackA]⟩ : PlaylistView).playlist.tracks →
      t ∈ (⟨ownPlaylistTracked, true, [trackA]⟩ : PlaylistView).tracksData) ∧
    (∀ t ∈ (⟨ownPlaylistTracked, true, [trackA]⟩ : PlaylistView).tracksData,
      t ∈ dbTracked.tracks ∧
      t._id ∈ (⟨ownPlaylistTracked, true, [trackA]⟩ : PlaylistView).playlist.tracks) ∧
    ((⟨ownPlaylistTracked, true, [trackA]⟩ : PlaylistView).playlist.tracks = [] →
      (⟨ownPlaylistTracked, true, [trackA]⟩ : PlaylistView).tracksData = []) :=
  getPlaylistResponseAnnotations dbTracked "eeeeeeeeeeeeeeeeeeeeeeee"
    "555555555555555555555555" ⟨ownPlaylistTracked, true, [trackA]⟩ (by decide)

/-! ## C2 — deduplicated, idempotent add-track -/

/-- C2: starting from a store whose playlists all have duplicate-free
membership lists, every sequence of add-track requests keeps every
membership list duplicate-free; and an add-track request whose track id is
already a member succeeds and rewrites the matched playlist to a record
identical except for `updatedAt` (membership unchanged). -/
theorem addTrackDedupIdempotent (db : Db)
    (hinv : ∀ p ∈ db.playlists, p.tracks.Nodup) :
    (∀ reqs : List AddReq, ∀ p ∈ (runAdds reqs db).playlists, p.tracks.Nodup) ∧
    (∀ sess pid tid now p t, oidValid pid = true → oidValid tid = true →
      findTrack db tid = some t →
      db.playlists.find? (ownedQuery sess pid) = some p →
      tid ∈ p.tracks →
      (addTrack db sess pid (some tid) now).1 = 200 ∧
      ∃ pre post, db.playlists = pre ++ p :: post ∧
        (addTrack db sess pid (some tid) now).2.playlists
          = pre ++ { p with updatedAt := now } :: post) := by
  refine ⟨fun reqs => runAdds_preserves_nodup reqs db hinv, ?_⟩
  intro sess pid tid now p t hpid htid hft hfind hmem
  have hany := any_of_find? hfind
  have hres : addTrack db sess pid (some tid) now =
      (200, { db with
        playlists := updateFirst (ownedQuery sess pid) (pushTrack tid now)
          db.playlists }) := by
    unfold addTrack
    simp [hpid, htid, hft, hany]
  obtain ⟨pre, post, hdec, hpre, hupd⟩ :=
    updateFirst_decomp (ownedQuery sess pid) (pushTrack tid now) hfind
  refine ⟨by rw [hres], pre, post, hdec, ?_⟩
  rw [hres]
  simpa [pushTrack, addToSet_of_mem hmem] using hupd

/-- C2 (witness): in the concrete store, adding a fresh track twice keeps
every membership list duplicate-free, and re-adding the already-present
track answers 200 and changes only `updatedAt`. -/
theorem addTrackDedupIdempotent_witness :
    (∀ p ∈ (runAdds addTwiceReqs dbTracked).playlists, p.tracks.Nodup) ∧
    ((addTrack dbTracked "eeeeeeeeeeeeeeeeeeeeeeee" "555555555555555555555555"
        (some "333333333333333333333333") 6).1 = 200 ∧
      ∃ pre post, dbTracked.playlists = pre ++ ownPlaylistTracked :: post ∧
        (addTrack dbTracked "eeeeeeeeeeeeeeeeeeeeeeee" "555555555555555555555555"
          (some "333333333333333333333333") 6).2.playlists
          = pre ++ { ownPlaylistTracked with updatedAt := 6 } :: post) :=
  ⟨(addTrackDedupIdempotent dbTracked (by decide)).1 addTwiceReqs,
   (addTrackDedupIdempotent dbTracked (by decide)).2 "eeeeeeeeeeeeeeeeeeeeeeee"
     "555555555555555555555555" "333333333333333333333333" 6 ownPlaylistTracked
     trackA (by decide) (by decide) (by decide) (by decide) (by decide)⟩

/-! ## C9 — remove-track has set-removal semantics -/

/-- C9: a remove-track request matching a playlist owned by the caller
succeeds (200); the matched playlist's membership becomes its old membership
with every occurrence of the given id removed — so removing an absent id
leaves the membership unchanged, every member other than the given id is
kept, and the given id is no longer a member — and no other playlist is
touched. -/
theorem removeTrackSetSemantics (db : Db) (sess pid tid : String) (now : Nat)
    (p : Playlist)
    (hpid : oidValid pid = true) (htid : oidValid tid = true)
    (hfind : db.playlists.find? (ownedQuery sess pid) = some p) :
    (removeTrack db sess pid tid now).1 = 200 ∧
    ∃ pre post, db.playlists = pre ++ p :: post ∧
      (removeTrack db sess pid tid now).2.playlists
        = pre ++ pullTrack tid now p :: post ∧
      (tid ∉ p.tracks → (pullTrack tid now p).tracks = p.tracks) ∧
      (∀ x, x ≠ tid → ((x ∈ (pullTrack tid now p).tracks) ↔ x ∈ p.tracks)) ∧
      tid ∉ (pullTrack tid now p).tracks := by
  obtain ⟨h200, _, _, pre, post, hdec, hupd⟩ :=
    removeTrack_decomp db sess pid tid now p hpid htid hfind
  refine ⟨h200, pre, post, hdec, hupd, ?_, ?_, ?_⟩
  · intro hnot
    simp only [pullTrack]
    apply List.filter_eq_self.mpr
    intro x hx
    simp only [bne_iff_ne, ne_eq]
    exact fun h => hnot (h ▸ hx)
  · intro x hx
    simp [pullTrack, List.mem_filter, hx]
  · simp [pullTrack, List.mem_filter]

/-- C9 (witness): removing a track that is not a member of the concrete
playlist answers 200 and leaves its membership unchanged. -/
theorem removeTrackSetSemantics_witness :
    (removeTrack dbTracked "eeeeeeeeeeeeeeeeeeeeeeee" "555555555555555555555555"
      "444444444444444444444444" 8).1 = 200 ∧
    ∃ pre post, dbTracked.playlists = pre ++ ownPlaylistTracked :: post ∧
      (removeTrack dbTracked "eeeeeeeeeeeeeeeeeeeeeeee" "555555555555555555555555"
        "444444444444444444444444" 8).2.playlists
        = pre ++ pullTrack "444444444444444444444444" 8 ownPlaylistTracked :: post ∧
      ("444444444444444444444444" ∉ ownPlaylistTracked.tracks →
        (pullTrack "444444444444444444444444" 8 ownPlaylistTracked).tracks
          = ownPlaylistTracked.tracks) ∧
      (∀ x, x ≠ "444444444444444444444444" →
        ((x ∈ (pullTrack "444444444444444444444444" 8 ownPlaylistTracked).tracks) ↔
          x ∈ ownPlaylistTracked.tracks)) ∧
      "444444444444444444444444" ∉
        (pullTrack "444444444444444444444444" 8 ownPlaylistTracked).tracks :=
  removeTrackSetSemantics dbTracked "eeeeeeeeeeeeeeeeeeeeeeee"
    "555555555555555555555555" "444444444444444444444444" 8 ownPlaylistTracked
    (by decide) (by decide) (by decide)

/-! ## C10 — remove-track always bumps the timestamp, and nothing else -/

/-- C10: a remove-track request matching a playlist owned by the caller sets
the matched playlist's `updatedAt` to the request time — also when the given
id was not a member — and modifies no field of the playlist other than
`tracks` and `updatedAt`; the other playlists and the other collections are
untouched. -/
theorem removeTrackTimestampFrame (db : Db) (sess pid tid : String) (now : Nat)
    (p : Playlist)
    (hpid : oidValid pid = true) (htid : oidValid tid = true)
    (hfind : db.playlists.find? (ownedQuery sess pid) = some p) :
    (removeTrack db sess pid tid now).2.users = db.users ∧
    (removeTrack db sess pid tid now).2.tracks = db.tracks ∧
    ∃ pre post, db.playlists = pre ++ p :: post ∧
      (removeTrack db sess pid tid now).2.playlists
        = pre ++ pullTrack tid now p :: post ∧
      (pullTrack tid now p).updatedAt = now ∧
      (pullTrack tid now p)._id = p._id ∧
      (pullTrack tid now p).name = p.name ∧
      (pullTrack tid now p).description = p.description ∧
      (pullTrack tid now p).coverUrl = p.coverUrl ∧
      (pullTrack tid now p).userId = p.userId ∧
      (pullTrack tid now p).createdAt = p.createdAt := by
  obtain ⟨_, hu, ht, pre, post, hdec, hupd⟩ :=
    removeTrack_decomp db sess pid tid now p hpid htid hfind
  exact ⟨hu, ht, pre, post, hdec, hupd, rfl, rfl, rfl, rfl, rfl, rfl, rfl⟩

/-- C10 (witness): the no-op removal of an absent track id still rewrites
`updatedAt` on the concrete playlist, and nothing else. -/
theorem removeTrackTimestampFrame_witness :
    (removeTrack dbTracked "eeeeeeeeeeeeeeeeeeeeeeee" "555555555555555555555555"
      "666666666666666666666666" 9).2.users = dbTracked.users ∧
    (removeTrack dbTracked "eeeeeeeeeeeeeeeeeeeeeeee" "555555555555555555555555"
      "666666666666666666666666" 9).2.tracks = dbTracked.tracks ∧
    ∃ pre post, dbTracked.playlists = pre ++ ownPlaylistTracked :: post ∧
      (removeTrack dbTracked "eeeeeeeeeeeeeeeeeeeeeeee" "555555555555555555555555"
        "666666666666666666666666" 9).2.playlists
        = pre ++ pullTrack "666666666666666666666666" 9 ownPlaylistTracked :: post ∧
      (pullTrack "666666666666666666666666" 9 ownPlaylistTracked).updatedAt = 9 ∧
      (pullTrack "666666666666666666666666" 9 ownPlaylistTracked)._id
        = ownPlaylistTracked._id ∧
      (pullTrack "666666666666666666666666" 9 ownPlaylistTracked).name
        = ownPlaylistTracked.name ∧
      (pullTrack "666666666666666666666666" 9 ownPlaylistTracked).description
        = ownPlaylistTracked.description ∧
      (pullTrack "666666666666666666666666" 9 ownPlaylistTracked).coverUrl
        = ownPlaylistTracked.coverUrl ∧
      (pullTrack "666666666666666666666666" 9 ownPlaylistTracked).userId
        = ownPlaylistTracked.userId ∧
      (pullTrack "666666666666666666666666" 9 ownPlaylistTracked).createdAt
        = ownPlaylistTracked.createdAt :=
  removeTrackTimestampFrame dbTracked "eeeeeeeeeeeeeeeeeeeeeeee"
    "555555555555555555555555" "666666666666666666666666" 9 ownPlaylistTracked
    (by decide) (by decide) (by decide)

/-! ## C8 — playlist-name invariant -/

/-- C8 (counterexample): the update handler re-validates only
non-emptiness, so an update carrying a 101-character name stores a name
longer than 100 characters in a store that satisfied the invariant
before. -/
theorem updateNameLengthNotPreserved :
    namesOk dbTracked ∧
    ¬ namesOk (updatePlaylist dbTracked "eeeeeeeeeeeeeeeeeeeeeeee"
        "555555555555555555555555" (some longName) none none 7).2 := by
  decide

/-- C8 (amended): create establishes the name invariant (non-empty, at most
100 characters) for the inserted record, and add-track, remove-track and
delete preserve it.  Update always preserves non-emptiness but enforces no
length bound: it preserves the full invariant only when the supplied name
has at most 100 characters. -/
theorem playlistNameInvariantAmended (db : Db) (hinv : namesOk db) :
    (∀ sess name description coverUrl now newId,
      namesOk (createPlaylist db sess name description coverUrl now newId).2) ∧
    (∀ sess pid trackId now, namesOk (addTrack db sess pid trackId now).2) ∧
    (∀ sess pid tid now, namesOk (removeTrack db sess pid tid now).2) ∧
    (∀ sess pid, namesOk (deletePlaylist db sess pid).2) ∧
    (∀ sess pid name description coverUrl now,
      (∀ p ∈ (updatePlaylist db sess pid name description coverUrl now).2.playlists,
        p.name.length ≠ 0) ∧
      ((∀ n, name = some n → n.length ≤ 100) →
        namesOk (updatePlaylist db sess pid name description coverUrl now).2)) := by
  refine ⟨?_, ?_, ?_, ?_, ?_⟩
  · intro sess name description coverUrl now newId p hp
    rcases createPlaylist_playlists_cases db sess name description coverUrl now newId
      with hc | ⟨n, hn, hne, hle, hc⟩
    · exact hinv p (hc ▸ hp)
    · rw [hc] at hp
      rcases List.mem_append.mp hp with h | h
      · exact hinv p h
      · have hpn : p = newPlaylistRecord sess n description coverUrl now newId := by
          simpa using h
        subst hpn
        exact ⟨by simpa [newPlaylistRecord] using hne,
          by simpa [newPlaylistRecord] using le_trans (jsTrim_length_le n) hle⟩
  · intro sess pid trackId now p hp
    rcases addTrack_playlists_cases db sess pid trackId now with hc | ⟨tid, _, hc⟩
    · exact hinv p (hc ▸ hp)
    · rw [hc] at hp
      rcases mem_updateFirst hp with h | ⟨q, hq, hpq⟩
      · exact hinv p h
      · subst hpq
        exact hinv q hq
  · intro sess pid tid now p hp
    rcases removeTrack_playlists_cases db sess pid tid now with hc | hc
    · exact hinv p (hc ▸ hp)
    · rw [hc] at hp
      rcases mem_updateFirst hp with h | ⟨q, hq, hpq⟩
      · exact hinv p h
      · subst hpq
        exact hinv q hq
  · intro sess pid p hp
    rcases deletePlaylist_playlists_cases db sess pid with hc | hc
    · exact hinv p (hc ▸ hp)
    · exact hinv p (mem_deleteFirst (hc ▸ hp))
  · intro sess pid name description coverUrl now
    rcases updatePlaylist_playlists_cases db sess pid name description coverUrl now
      with hc | ⟨hname, hc⟩
    · exact ⟨fun p hp => (hinv p (hc ▸ hp)).1, fun _ p hp => hinv p (hc ▸ hp)⟩
    · constructor
      · intro p hp
        rw [hc] at hp
        rcases mem_updateFirst hp with h | ⟨q, hq, hpq⟩
        · exact (hinv p h).1
        · subst hpq
          cases name with
          | none => exact (hinv q hq).1
          | some n =>
            simpa [applyPlaylistUpdate] using hname n rfl
      · intro hlen p hp
        rw [hc] at hp
        rcases mem_updateFirst hp with h | ⟨q, hq, hpq⟩
        · exact hinv p h
        · subst hpq
          cases name with
          | none => exact hinv q hq
          | some n =>
            refine ⟨by simpa [applyPlaylistUpdate] using hname n rfl, ?_⟩
            simpa [applyPlaylistUpdate] using
              le_trans (jsTrim_length_le n) (hlen n rfl)

/-- C8 (witness): the amended theorem applied in the concrete store, once
per operation. -/
theorem playlistNameInvariantAmended_witness :
    namesOk (createPlaylist dbTracked "eeeeeeeeeeeeeeeeeeeeeeee" (some " Chill ")
        none none 11 "777777777777777777777777").2 ∧
    namesOk (addTrack dbTracked "eeeeeeeeeeeeeeeeeeeeeeee" "555555555555555555555555"
        (some "444444444444444444444444") 12).2 ∧
    namesOk (removeTrack dbTracked "eeeeeeeeeeeeeeeeeeeeeeee"
        "555555555555555555555555" "333333333333333333333333" 13).2 ∧
    namesOk (deletePlaylist dbTracked "eeeeeeeeeeeeeeeeeeeeeeee"
        "555555555555555555555555").2 ∧
    namesOk (updatePlaylist dbTracked "eeeeeeeeeeeeeeeeeeeeeeee"
        "555555555555555555555555" (some "Road Trip") none none 14).2 :=
  ⟨(playlistNameInvariantAmended dbTracked (by decide)).1 _ _ _ _ _ _,
   (playlistNameInvariantAmended dbTracked (by decide)).2.1 _ _ _ _,
   (playlistNameInvariantAmended dbTracked (by decide)).2.2.1 _ _ _ _,
   (playlistNameInvariantAmended dbTracked (by decide)).2.2.2.1 _ _,
   ((playlistNameInvariantAmended dbTracked (by decide)).2.2.2.2 _ _ _ _ _ _).2
     (fun n hn => by cases hn; decide)⟩

end Tynda
